import Mathlib

set_option linter.dupNamespace false

/- Verification of the influxdb-line-protocol crate: a shallow embedding of
its data model (measurement, tags, fields, timestamps, points, batches), the
character-escaping engine, and the rendering into the textual line-protocol
format, together with theorems about the stated properties. -/

namespace InfluxLine

/-- Error taxonomy of `error.rs` (the `Infallible` arm is uninhabited in Rust
and is omitted). -/
inductive Error where
  | NewLine
  | StartWithForbieden_
  deriving DecidableEq

deriving instance DecidableEq for Except

/-- Tail of `escape.rs::escape`: the loop over `s[begin..]` that pushes a
backslash before each character satisfying the predicate. -/
def escapeFrom (p : Char → Bool) : List Char → List Char
  | [] => []
  | c :: cs => if p c then '\\' :: c :: escapeFrom p cs else c :: escapeFrom p cs

namespace escape

/-- The generic escaping function of `escape.rs`: find the first reserved
character, copy the unaffected prefix verbatim, then process the rest
character by character. Modelled on the character list of the string (Rust
slices at the byte index of a char boundary, which is the same split). -/
def escape (p : Char → Bool) (s : String) : String :=
  String.mk (s.data.take (s.data.findIdx p) ++ escapeFrom p (s.data.drop (s.data.findIdx p)))

/-- The predicate of `escape.rs::escape_comma_equal_space`. -/
def escape_comma_equal_space (c : Char) : Bool :=
  c == '=' || c == ',' || c == ' '

def tag_key (s : String) : String :=
  escape escape_comma_equal_space s

def field_key (s : String) : String :=
  escape escape_comma_equal_space s

def tag_value (s : String) : String :=
  escape escape_comma_equal_space s

/-- The closure inside `escape.rs::field_value`. -/
def field_value_escape_char (c : Char) : Bool :=
  c == '"' || c == '\\'

def field_value (s : String) : String :=
  escape field_value_escape_char s

/-- The closure inside `escape.rs::measurement`. -/
def measurement_escape_char (c : Char) : Bool :=
  c == ',' || c == ' '

def measurement (s : String) : String :=
  escape measurement_escape_char s

end escape

/-- Specification-side escaping: exactly one backslash inserted immediately
before each occurrence of a reserved character, all other characters passing
through unchanged. -/
def escapeSpecChars (p : Char → Bool) : List Char → List Char
  | [] => []
  | c :: cs => (if p c then ['\\', c] else [c]) ++ escapeSpecChars p cs

def escapeSpec (p : Char → Bool) (s : String) : String :=
  String.mk (escapeSpecChars p s.data)

theorem escapeFrom_eq_spec (p : Char → Bool) : ∀ cs : List Char, escapeFrom p cs = escapeSpecChars p cs := by
  intro cs
  induction cs with
  | nil => rfl
  | cons c cs ih =>
    cases hp : p c <;> simp [escapeFrom, escapeSpecChars, hp, ih]

theorem take_findIdx_escape (p : Char → Bool) : ∀ cs : List Char,
    cs.take (cs.findIdx p) ++ escapeFrom p (cs.drop (cs.findIdx p)) = escapeSpecChars p cs := by
  intro cs
  induction cs with
  | nil => rfl
  | cons c cs ih =>
    cases hp : p c
    · simp only [List.findIdx_cons, hp, cond_false, List.take_succ_cons, List.drop_succ_cons,
        List.cons_append, escapeSpecChars, ih]
      simp [hp]
    · simp [List.findIdx_cons, hp, escapeFrom_eq_spec, escapeSpecChars]

theorem escape_eq_escapeSpec (p : Char → Bool) (s : String) : escape.escape p s = escapeSpec p s := by
  unfold escape.escape escapeSpec
  rw [take_findIdx_escape]

theorem escapeSpecChars_id (p : Char → Bool) : ∀ cs : List Char, (∀ c ∈ cs, p c = false) → escapeSpecChars p cs = cs := by
  intro cs h
  induction cs with
  | nil => rfl
  | cons c cs ih =>
    have hc := h c (by simp)
    simp [escapeSpecChars, hc, ih (fun x hx => h x (by simp [hx]))]

theorem escape_id (p : Char → Bool) (s : String) (h : ∀ c ∈ s.data, p c = false) :
    escape.escape p s = s := by
  rw [escape_eq_escapeSpec]
  unfold escapeSpec
  rw [escapeSpecChars_id p s.data h]

/-- The check of `name_restriction.rs::prevent_start_with_` (Rust
`s.starts_with('_')`, modelled on the character list). -/
def prevent_start_with_ (s : String) : Except Error Unit :=
  match s.data with
  | c :: _ => if c == '_' then Except.error Error.StartWithForbieden_ else Except.ok ()
  | [] => Except.ok ()

/-- Rust `s.contains('\n')`, modelled on the character list. -/
def prevent_newline (s : String) : Except Error Unit :=
  if s.data.contains '\n' then Except.error Error.NewLine else Except.ok ()

/-- The validation of `name_restriction.rs::prevent_key`: the `?` on
`prevent_start_with_` followed by `prevent_newline`. -/
def prevent_key (s : String) : Except Error Unit :=
  match prevent_start_with_ s with
  | Except.ok _ => prevent_newline s
  | Except.error e => Except.error e

def prevent_tag_value (s : String) : Except Error Unit :=
  prevent_newline s

def prevent_filed_value_string (s : String) : Except Error Unit :=
  prevent_newline s

def check_measurement (s : String) : Except Error Unit :=
  prevent_newline s

/-- The constructor `Measurement::new`: the newtype wrapper is modelled as the
validated string itself. -/
def Measurement.new (s : String) : Except Error String :=
  (check_measurement s).map fun _ => s

/-- The constructor `TagKey::new`. -/
def TagKey.new (s : String) : Except Error String :=
  (prevent_key s).map fun _ => s

/-- The constructor `FieldKey::new`. -/
def FieldKey.new (s : String) : Except Error String :=
  (prevent_key s).map fun _ => s

/-- The constructor `TagValue::new`. -/
def TagValue.new (s : String) : Except Error String :=
  (prevent_tag_value s).map fun _ => s

/-- The `Precision` enum of `precision.rs`, in declaration order (its derived
`Ord` ranks `Secs < Milli < Micro < Nanos`). -/
inductive Precision where
  | Secs
  | Milli
  | Micro
  | Nanos
  deriving DecidableEq, Fintype

/-- The rank the derived `Ord` of `Precision` gives each variant. -/
def Precision.rank : Precision → Nat
  | .Secs => 0
  | .Milli => 1
  | .Micro => 2
  | .Nanos => 3

/-- The derived `PartialOrd` on Rust `Option<Precision>`: `None` below every
`Some`, `Some` ordered by the inner rank. -/
def optRank : Option Precision → Nat
  | none => 0
  | some p => p.rank + 1

/-- The `Timestamp` enum of `timestamp.rs`; `i64` payloads are modelled as
`Int`, with the source's unchecked i64 multiplications carried as explicit
wrap-around into the signed 64-bit range and its one checked operation,
`timestamp_nanos`, as an explicit i64 range test. -/
inductive Timestamp where
  | Now
  | Nanos (v : Int)
  | Micro (v : Int)
  | Milli (v : Int)
  | Secs (v : Int)
  deriving DecidableEq

def Timestamp.precision : Timestamp → Option Precision
  | .Now => none
  | .Nanos _ => some Precision.Nanos
  | .Micro _ => some Precision.Micro
  | .Milli _ => some Precision.Milli
  | .Secs _ => some Precision.Secs

def i64Min : Int :=
  -9223372036854775808

def i64Max : Int :=
  9223372036854775807

/-- The signed 64-bit range of the Rust `i64` payloads. -/
def fitsI64 (r : Int) : Prop :=
  i64Min ≤ r ∧ r ≤ i64Max

instance (r : Int) : Decidable (fitsI64 r) := by
  unfold fitsI64
  infer_instance

/-- Rust's unchecked `i64` multiplication result: on overflow a release build
wraps the product modulo 2^64 into the signed 64-bit range (a debug build
aborts instead of producing the exact product); the wrapped value is what
this embedding carries. On an in-range product it is the product itself. -/
def wrapI64 (x : Int) : Int :=
  (x + 9223372036854775808) % 18446744073709551616 - 9223372036854775808

/-- Rust `/` on `i64` truncates toward zero: `Int.tdiv` (a division by these
positive constants never overflows, so no wrap is involved). -/
def Timestamp.to_secs_lossy : Timestamp → Timestamp
  | .Now => .Now
  | .Nanos v => .Secs (Int.tdiv v 1000000000)
  | .Micro v => .Secs (Int.tdiv v 1000000)
  | .Milli v => .Secs (Int.tdiv v 1000)
  | .Secs v => .Secs v

/-- The `Secs` arm multiplies with Rust's unchecked i64 arithmetic: `wrapI64`. -/
def Timestamp.to_milli_lossy : Timestamp → Timestamp
  | .Now => .Now
  | .Nanos v => .Milli (Int.tdiv v 1000000)
  | .Micro v => .Milli (Int.tdiv v 1000)
  | .Milli v => .Milli v
  | .Secs v => .Milli (wrapI64 (v * 1000))

/-- The `Milli` and `Secs` arms multiply with Rust's unchecked i64
arithmetic: `wrapI64`. -/
def Timestamp.to_micro_lossy : Timestamp → Timestamp
  | .Now => .Now
  | .Nanos v => .Micro (Int.tdiv v 1000)
  | .Micro v => .Micro v
  | .Milli v => .Micro (wrapI64 (v * 1000))
  | .Secs v => .Micro (wrapI64 (v * 1000000))

/-- The `Micro`, `Milli` and `Secs` arms multiply with Rust's unchecked i64
arithmetic: `wrapI64`. -/
def Timestamp.to_nanos : Timestamp → Timestamp
  | .Now => .Now
  | .Nanos v => .Nanos v
  | .Micro v => .Nanos (wrapI64 (v * 1000))
  | .Milli v => .Nanos (wrapI64 (v * 1000000))
  | .Secs v => .Nanos (wrapI64 (v * 1000000000))

def Timestamp.timestamp_precision_lossy (t : Timestamp) (precision : Precision) : Timestamp :=
  match precision with
  | .Secs => t.to_secs_lossy
  | .Milli => t.to_milli_lossy
  | .Micro => t.to_micro_lossy
  | .Nanos => t.to_nanos

/-- Rust `i64::checked_mul` for operands in range: `some` of the product when
it fits the signed 64-bit range, `none` on overflow (never a wrapped value). -/
def checked_mul (a b : Int) : Option Int :=
  if i64Min ≤ a * b ∧ a * b ≤ i64Max then some (a * b) else none

def Timestamp.timestamp_nanos : Timestamp → Option Int
  | .Now => none
  | .Nanos v => some v
  | .Micro v => checked_mul v 1000
  | .Milli v => checked_mul v 1000000
  | .Secs v => checked_mul v 1000000000

/-- A `Tag` of `tag.rs`: the validated key and value strings. -/
structure Tag where
  key : String
  value : String
  deriving DecidableEq

def Tag.to_text (t : Tag) : String :=
  escape.tag_key t.key ++ "=" ++ escape.tag_value t.value

/-- The `FieldValue` enum of `field.rs`. `Float` holds a `NotNan<f64>` whose
rendering is Rust's `f64` `Display`; floating-point formatting is outside
this embedding, so the constructor carries that rendered decimal text (which
`to_text` emits verbatim, with no suffix). -/
inductive FieldValue where
  | String (s : String)
  | UInteger (v : Nat)
  | Integer (v : Int)
  | Float (text : String)
  | Boolean (v : Bool)
  deriving DecidableEq

/-- The body of `FieldValue::to_text` (a helper outside the `FieldValue`
namespace, where the `String` constructor shadows the string type). -/
def fieldValueText : FieldValue → String
  | .String s => "\"" ++ escape.field_value s ++ "\""
  | .UInteger v => toString v ++ "u"
  | .Integer v => toString v ++ "i"
  | .Float t => t
  | .Boolean v => toString v

def FieldValue.to_text (v : FieldValue) :=
  fieldValueText v

/-- A `Field` of `field.rs`: validated key and a `FieldValue`. -/
structure Field where
  key : String
  value : FieldValue
  deriving DecidableEq

def Field.to_text (f : Field) : String :=
  escape.field_key f.key ++ "=" ++ f.value.to_text

/-- A `Point` of `point.rs`. -/
structure Point where
  measurment : String
  tag_set : List Tag
  field_set : List Field
  timestamp : Timestamp
  deriving DecidableEq

/-- One step of the field loop in `Point::to_text`: the `first_iter` flag and
the line built so far. -/
def fieldStep (st : Bool × String) (f : Field) : Bool × String :=
  if st.1 then (false, st.2 ++ " " ++ Field.to_text f)
  else (st.1, st.2 ++ ", " ++ Field.to_text f)

def Point.to_text (pt : Point) : String :=
  let line := escape.measurement pt.measurment
  let line := pt.tag_set.foldl (fun line t => line ++ "," ++ Tag.to_text t) line
  let line := (pt.field_set.foldl fieldStep (true, line)).2
  match pt.timestamp.timestamp_nanos with
  | some ts => line ++ " " ++ toString ts
  | none => line

/-- Modelled from the spec: `Point::precision` is called by `batch.rs` but its
definition is not among the repository's given sources; per the spec
(`precisionOf(timestamp)`: None for Unresolved, else the unit tag) it is the
precision of the point's timestamp. -/
def Point.precision (pt : Point) : Option Precision :=
  pt.timestamp.precision

/-- The `PointBuilder` of `point.rs`: the staged point and the error queue. -/
structure PointBuilder where
  point : Point
  errors : List Error
  deriving DecidableEq

/-- `PointBuilder::build`: `none` models the panic on an empty field set;
otherwise the first queued error or the assembled point. -/
def PointBuilder.build (b : PointBuilder) : Option (Except Error Point) :=
  if b.point.field_set.isEmpty then none
  else
    match b.errors with
    | e :: _ => some (Except.error e)
    | [] => some (Except.ok b.point)

/-- One step of the fold in `batch.rs::highest_precision` (its closure names
the accumulator `p` and the current element `acc`): an accumulator already at
`Nanos` short-circuits, otherwise the larger of the two under the derived
`Option<Precision>` order. -/
def hpStep (p acc : Option Precision) : Option Precision :=
  if p == some Precision.Nanos then p
  else if optRank acc < optRank p then p else acc

def highest_precision (vec : List Point) : Option Precision :=
  (vec.map Point.precision).foldl hpStep none

/-- The `Batch` of `batch.rs`: the inner point vector (aggregate precision is
computed from it on demand). -/
structure Batch where
  inner : List Point
  deriving DecidableEq

def Batch.precision (b : Batch) : Option Precision :=
  highest_precision b.inner

def Batch.len (b : Batch) : Nat :=
  b.inner.length

/-- `Batch::clone_and_clear` swaps the inner vector with a fresh empty one:
the first component is the returned batch, the second the receiver after the
call. -/
def Batch.clone_and_clear (b : Batch) : Batch × Batch :=
  (Batch.mk b.inner, Batch.mk [])

/-- Concatenation of a list of strings (specification side). -/
def concatList : List String → String
  | [] => ""
  | s :: rest => s ++ concatList rest

/-- Strings joined by a separator (specification side). -/
def sepBy (sep : String) : List String → String
  | [] => ""
  | s :: rest => s ++ concatList (rest.map fun t => sep ++ t)

/-- The rendering shape the spec describes: escaped measurement, a comma and
the rendered tag for each tag in insertion order, one space, the rendered
fields joined by a comma and a space in insertion order, and the integer
nanosecond timestamp after a space only when the timestamp resolves. -/
def pointTextSpec (pt : Point) : String :=
  escape.measurement pt.measurment ++
    concatList (pt.tag_set.map fun t => "," ++ Tag.to_text t) ++
    " " ++ sepBy ", " (pt.field_set.map Field.to_text) ++
    (match pt.timestamp.timestamp_nanos with
     | some n => " " ++ toString n
     | none => "")

/-- Specification-side maximum of optional precisions by rank: an unresolved
(no-precision) side contributes nothing. -/
def maxPrecOpt : Option Precision → Option Precision → Option Precision
  | none, b => b
  | some x, none => some x
  | some x, some y => if Precision.rank y ≤ Precision.rank x then some x else some y

/-- Specification-side aggregate precision of a list of points: the maximum
rank over the resolved timestamps of its members. -/
def aggSpec (pts : List Point) : Option Precision :=
  (pts.map fun pt => pt.timestamp.precision).foldr maxPrecOpt none

/-- C2: each escaping category uses its reserved set (measurement: comma and
space; tag key, tag value and field key: equals sign, comma and space; field
string value: double quote and backslash); each escaping function returns the
input unchanged when it has no reserved character of its category, and
otherwise the input with exactly one backslash inserted immediately before
each occurrence of a reserved character, all other characters unchanged. -/
theorem escape_categories_correct (s : String) :
    (∀ c : Char, escape.measurement_escape_char c = true ↔ (c = ',' ∨ c = ' ')) ∧
    (∀ c : Char, escape.escape_comma_equal_space c = true ↔ (c = '=' ∨ c = ',' ∨ c = ' ')) ∧
    (∀ c : Char, escape.field_value_escape_char c = true ↔ (c = '"' ∨ c = '\\')) ∧
    escape.measurement s = escapeSpec escape.measurement_escape_char s ∧
    escape.tag_key s = escapeSpec escape.escape_comma_equal_space s ∧
    escape.field_key s = escapeSpec escape.escape_comma_equal_space s ∧
    escape.tag_value s = escapeSpec escape.escape_comma_equal_space s ∧
    escape.field_value s = escapeSpec escape.field_value_escape_char s ∧
    ((∀ c ∈ s.data, escape.measurement_escape_char c = false) → escape.measurement s = s) ∧
    ((∀ c ∈ s.data, escape.escape_comma_equal_space c = false) →
      escape.tag_key s = s ∧ escape.field_key s = s ∧ escape.tag_value s = s) ∧
    ((∀ c ∈ s.data, escape.field_value_escape_char c = false) → escape.field_value s = s) := by
  refine ⟨?_, ?_, ?_, ?_, ?_, ?_, ?_, ?_, ?_, ?_, ?_⟩
  · intro c
    simp [escape.measurement_escape_char, or_comm]
    try tauto
  · intro c
    simp [escape.escape_comma_equal_space]
    try tauto
  · intro c
    simp [escape.field_value_escape_char]
    try tauto
  · exact escape_eq_escapeSpec _ s
  · exact escape_eq_escapeSpec _ s
  · exact escape_eq_escapeSpec _ s
  · exact escape_eq_escapeSpec _ s
  · exact escape_eq_escapeSpec _ s
  · exact fun h => escape_id _ s h
  · exact fun h => ⟨escape_id _ s h, escape_id _ s h, escape_id _ s h⟩
  · exact fun h => escape_id _ s h

/-- Witness for C2 at concrete inputs: a reserved-free string passes through
every category unchanged. -/
theorem escape_categories_correct_witness :
    escape.measurement "ab" = "ab" ∧ escape.tag_key "ab" = "ab" ∧
      escape.field_key "ab" = "ab" ∧ escape.tag_value "ab" = "ab" ∧
      escape.field_value "ab" = "ab" := by
  have h := escape_categories_correct "ab"
  have hm := h.2.2.2.2.2.2.2.2.1 (by decide)
  have hk := h.2.2.2.2.2.2.2.2.2.1 (by decide)
  have hv := h.2.2.2.2.2.2.2.2.2.2 (by decide)
  exact ⟨hm, hk.1, hk.2.1, hk.2.2, hv⟩

theorem foldl_tags (ts : List Tag) : ∀ line : String,
    ts.foldl (fun line t => line ++ "," ++ Tag.to_text t) line =
      line ++ concatList (ts.map fun t => "," ++ Tag.to_text t) := by
  induction ts with
  | nil =>
    intro line
    simp [concatList]
  | cons t ts ih =>
    intro line
    simp only [List.foldl_cons, List.map_cons, concatList, ih]
    simp [String.append_assoc]

theorem foldl_fields_false (fs : List Field) : ∀ line : String,
    fs.foldl fieldStep (false, line) =
      (false, line ++ concatList (fs.map fun f => ", " ++ Field.to_text f)) := by
  induction fs with
  | nil =>
    intro line
    simp [concatList]
  | cons f fs ih =>
    intro line
    have h1 : fieldStep (false, line) f = (false, line ++ ", " ++ Field.to_text f) := by
      simp [fieldStep]
    simp only [List.foldl_cons, h1, List.map_cons, concatList, ih]
    simp [String.append_assoc]

theorem foldl_fields_true (f : Field) (fs : List Field) (line : String) :
    ((f :: fs).foldl fieldStep (true, line)).2 =
      line ++ " " ++ sepBy ", " ((f :: fs).map Field.to_text) := by
  have h1 : fieldStep (true, line) f = (false, line ++ " " ++ Field.to_text f) := by
    simp [fieldStep]
  simp only [List.foldl_cons, h1, foldl_fields_false]
  simp [sepBy, List.map_map, Function.comp_def, String.append_assoc]

theorem point_render (pt : Point) (h : pt.field_set ≠ []) :
    Point.to_text pt = pointTextSpec pt := by
  obtain ⟨m, tags, fields, ts⟩ := pt
  cases fields with
  | nil => exact absurd rfl h
  | cons f fs =>
    simp only [Point.to_text, pointTextSpec]
    rw [foldl_tags, foldl_fields_true]
    cases hts : Timestamp.timestamp_nanos ts <;>
      simp [hts, String.append_assoc]

/-- C1: for every point with at least one field, `Point::to_text` renders the
escaped measurement, then for each tag in insertion order a comma followed by
the escaped key, an equals sign and the escaped value, then a single space,
then the fields as escaped key, equals sign and encoded value joined by a
comma and a space in insertion order, then a space and the integer nanosecond
timestamp only when the timestamp resolves; in particular the measurement
test with tag (host, serverA), field (value, SignedInteger 1) and timestamp
Nanoseconds 100 renders exactly as claimed. -/
theorem point_to_text_correct :
    (∀ pt : Point, pt.field_set ≠ [] → Point.to_text pt = pointTextSpec pt) ∧
    Point.to_text (Point.mk "test" [Tag.mk "host" "serverA"]
        [Field.mk "value" (FieldValue.Integer 1)] (Timestamp.Nanos 100)) =
      "test,host=serverA value=1i 100" := by
  refine ⟨fun pt h => point_render pt h, ?_⟩
  decide

/-- Witness for C1: the end-to-end example point has a nonempty field set and
its rendering agrees with the specification shape. -/
theorem point_to_text_correct_witness :
    Point.to_text (Point.mk "test" [Tag.mk "host" "serverA"]
        [Field.mk "value" (FieldValue.Integer 1)] (Timestamp.Nanos 100)) =
      pointTextSpec (Point.mk "test" [Tag.mk "host" "serverA"]
        [Field.mk "value" (FieldValue.Integer 1)] (Timestamp.Nanos 100)) :=
  point_to_text_correct.1 _ (by decide)

/-- C3: key validation as implemented. `TagKey::new` and `FieldKey::new`
reject a leading underscore and an embedded newline and succeed otherwise,
but `Measurement::new` (via `check_measurement`) checks only for a newline
and accepts the leading underscore its own module documentation forbids: the
string starting with an underscore is accepted as a measurement while both
key constructors reject it. -/
theorem measurement_underscore_divergence :
    Measurement.new "_x" = Except.ok "_x" ∧
    TagKey.new "_x" = Except.error Error.StartWithForbieden_ ∧
    FieldKey.new "_x" = Except.error Error.StartWithForbieden_ ∧
    Measurement.new "a\nb" = Except.error Error.NewLine ∧
    TagKey.new "a\nb" = Except.error Error.NewLine ∧
    FieldKey.new "a\nb" = Except.error Error.NewLine ∧
    TagKey.new "ab" = Except.ok "ab" ∧
    FieldKey.new "ab" = Except.ok "ab" := by
  decide

/-- C4: for a builder holding at least one field, `build` surfaces the first
queued error when the queue is non-empty (the rest are discarded) and returns
the assembled point when the queue is empty; for a builder holding zero
fields, `build` panics (modelled as `none`) instead of returning a typed
error. -/
theorem pointBuilder_build_spec (b : PointBuilder) :
    (b.point.field_set = [] → b.build = none) ∧
    (b.point.field_set ≠ [] → b.errors = [] → b.build = some (Except.ok b.point)) ∧
    (∀ e rest, b.point.field_set ≠ [] → b.errors = e :: rest →
      b.build = some (Except.error e)) := by
  refine ⟨?_, ?_, ?_⟩
  · intro h
    simp [PointBuilder.build, h]
  · intro h he
    simp [PointBuilder.build, List.isEmpty_iff, h, he]
  · intro e rest h he
    simp [PointBuilder.build, List.isEmpty_iff, h, he]

/-- Witness for C4: a builder with one field and two queued errors surfaces
exactly the first queued error. -/
theorem pointBuilder_build_spec_witness :
    PointBuilder.build (PointBuilder.mk
        (Point.mk "m" [] [Field.mk "a" (FieldValue.Boolean true)] Timestamp.Now)
        [Error.NewLine, Error.StartWithForbieden_]) =
      some (Except.error Error.NewLine) :=
  (pointBuilder_build_spec _).2.2 Error.NewLine [Error.StartWithForbieden_]
    (by decide) (by decide)

/-- C8: the text encoding of a field value is the quoted escaped content for
a string, the decimal digits with suffix u for an unsigned integer, the
decimal digits with suffix i for a signed integer, the plain decimal text
with no suffix for a float, and true or false for a boolean; in particular
key k with SignedInteger 42 encodes to k=42i, UnsignedInteger 42 to k=42u
and Boolean true to k=true. -/
theorem field_to_text_correct :
    (∀ s : String, FieldValue.to_text (FieldValue.String s) =
      "\"" ++ escape.field_value s ++ "\"") ∧
    (∀ v : Nat, FieldValue.to_text (FieldValue.UInteger v) = toString v ++ "u") ∧
    (∀ v : Int, FieldValue.to_text (FieldValue.Integer v) = toString v ++ "i") ∧
    (∀ t : String, FieldValue.to_text (FieldValue.Float t) = t) ∧
    FieldValue.to_text (FieldValue.Boolean true) = "true" ∧
    FieldValue.to_text (FieldValue.Boolean false) = "false" ∧
    (∀ f : Field, Field.to_text f = escape.field_key f.key ++ "=" ++ FieldValue.to_text f.value) ∧
    Field.to_text (Field.mk "k" (FieldValue.Integer 42)) = "k=42i" ∧
    Field.to_text (Field.mk "k" (FieldValue.UInteger 42)) = "k=42u" ∧
    Field.to_text (Field.mk "k" (FieldValue.Boolean true)) = "k=true" := by
  refine ⟨fun s => rfl, fun v => rfl, fun v => rfl, fun t => rfl, rfl, rfl,
    fun f => rfl, ?_, ?_, ?_⟩ <;> decide

theorem tdiv_units (q r : Int) (hq : 0 ≤ q) (hr0 : 0 ≤ r) (hr : r < 1000) :
    Int.tdiv (q * 1000 + r) 1000 = q := by
  rw [Int.tdiv_eq_ediv (by positivity) (by norm_num)]
  omega

theorem wrapI64_eq_self (x : Int) (h : fitsI64 x) : wrapI64 x = x := by
  unfold fitsI64 i64Min i64Max at h
  unfold wrapI64
  omega

/-- C6 counterexample: at Seconds (2^63 - 1) the unchecked i64 scaling to
nanoseconds wraps into the signed 64-bit range, so the conversion does not
yield the unit-scale product the claim states for every resolved
timestamp. -/
theorem timestamp_lossy_overflow_counterexample :
    Timestamp.to_nanos (Timestamp.Secs 9223372036854775807) ≠
      Timestamp.Nanos (9223372036854775807 * 1000000000) := by
  decide

/-- C6 (amended): lossy conversion toward a finer unit multiplies by the
unit-scale ratio whenever the product fits the signed 64-bit range (an
overflowing product instead wraps under the unchecked i64 multiplication);
conversion toward a coarser unit always divides with truncation toward zero,
discarding sub-unit resolution; Seconds 1 to nanoseconds is
Nanoseconds 1000000000 and Nanoseconds 1500 to microseconds is
Microseconds 1 (truncation, not rounding). -/
theorem timestamp_lossy_correct :
    (∀ q r : Int, 0 ≤ q → 0 ≤ r → r < 1000 →
      Timestamp.to_micro_lossy (Timestamp.Nanos (q * 1000 + r)) = Timestamp.Micro q) ∧
    (∀ v : Int, fitsI64 (v * 1000000000) →
      Timestamp.to_nanos (Timestamp.Secs v) = Timestamp.Nanos (v * 1000000000)) ∧
    (∀ v : Int, fitsI64 (v * 1000000) →
      Timestamp.to_nanos (Timestamp.Milli v) = Timestamp.Nanos (v * 1000000)) ∧
    (∀ v : Int, fitsI64 (v * 1000) →
      Timestamp.to_nanos (Timestamp.Micro v) = Timestamp.Nanos (v * 1000)) ∧
    (∀ v : Int, fitsI64 (v * 1000000) →
      Timestamp.to_micro_lossy (Timestamp.Secs v) = Timestamp.Micro (v * 1000000)) ∧
    (∀ v : Int, fitsI64 (v * 1000) →
      Timestamp.to_micro_lossy (Timestamp.Milli v) = Timestamp.Micro (v * 1000)) ∧
    (∀ v : Int, fitsI64 (v * 1000) →
      Timestamp.to_milli_lossy (Timestamp.Secs v) = Timestamp.Milli (v * 1000)) ∧
    (∀ v : Int, Timestamp.to_micro_lossy (Timestamp.Nanos v) = Timestamp.Micro (Int.tdiv v 1000)) ∧
    (∀ v : Int, Timestamp.to_milli_lossy (Timestamp.Nanos v) = Timestamp.Milli (Int.tdiv v 1000000)) ∧
    (∀ v : Int, Timestamp.to_secs_lossy (Timestamp.Nanos v) = Timestamp.Secs (Int.tdiv v 1000000000)) ∧
    (∀ v : Int, Timestamp.to_milli_lossy (Timestamp.Micro v) = Timestamp.Milli (Int.tdiv v 1000)) ∧
    (∀ v : Int, Timestamp.to_secs_lossy (Timestamp.Micro v) = Timestamp.Secs (Int.tdiv v 1000000)) ∧
    (∀ v : Int, Timestamp.to_secs_lossy (Timestamp.Milli v) = Timestamp.Secs (Int.tdiv v 1000)) ∧
    (∀ t : Timestamp, Timestamp.timestamp_precision_lossy t Precision.Secs = t.to_secs_lossy) ∧
    (∀ t : Timestamp, Timestamp.timestamp_precision_lossy t Precision.Milli = t.to_milli_lossy) ∧
    (∀ t : Timestamp, Timestamp.timestamp_precision_lossy t Precision.Micro = t.to_micro_lossy) ∧
    (∀ t : Timestamp, Timestamp.timestamp_precision_lossy t Precision.Nanos = t.to_nanos) ∧
    Timestamp.to_nanos (Timestamp.Secs 1) = Timestamp.Nanos 1000000000 ∧
    Timestamp.to_micro_lossy (Timestamp.Nanos 1500) = Timestamp.Micro 1 := by
  refine ⟨?_, ?_, ?_, ?_, ?_, ?_, ?_, fun v => rfl, fun v => rfl, fun v => rfl,
    fun v => rfl, fun v => rfl, fun v => rfl, fun t => rfl, fun t => rfl, fun t => rfl,
    fun t => rfl, by decide, by decide⟩
  · intro q r hq hr0 hr
    simp only [Timestamp.to_micro_lossy]
    rw [tdiv_units q r hq hr0 hr]
  · intro v h
    simp only [Timestamp.to_nanos]
    rw [wrapI64_eq_self _ h]
  · intro v h
    simp only [Timestamp.to_nanos]
    rw [wrapI64_eq_self _ h]
  · intro v h
    simp only [Timestamp.to_nanos]
    rw [wrapI64_eq_self _ h]
  · intro v h
    simp only [Timestamp.to_micro_lossy]
    rw [wrapI64_eq_self _ h]
  · intro v h
    simp only [Timestamp.to_micro_lossy]
    rw [wrapI64_eq_self _ h]
  · intro v h
    simp only [Timestamp.to_milli_lossy]
    rw [wrapI64_eq_self _ h]

/-- Witness for C6: the truncation statement at quotient one and remainder
five hundred, and a fitting Seconds-to-nanoseconds product. -/
theorem timestamp_lossy_correct_witness :
    Timestamp.to_micro_lossy (Timestamp.Nanos (1 * 1000 + 500)) = Timestamp.Micro 1 ∧
    Timestamp.to_nanos (Timestamp.Secs 2) = Timestamp.Nanos (2 * 1000000000) :=
  ⟨timestamp_lossy_correct.1 1 500 (by decide) (by decide) (by decide),
    timestamp_lossy_correct.2.1 2 (by decide)⟩

/-- C7: `timestamp_nanos` returns no value for an unresolved timestamp,
returns the stored integer multiplied by the unit scale (1, 1000, 1000000,
1000000000) when that product fits in the signed 64-bit range, and yields no
value (never a wrapped result) when the multiplication overflows. -/
theorem timestamp_nanos_correct :
    Timestamp.timestamp_nanos Timestamp.Now = none ∧
    (∀ v : Int, Timestamp.timestamp_nanos (Timestamp.Nanos v) = some v) ∧
    (∀ v : Int, fitsI64 (v * 1000) →
      Timestamp.timestamp_nanos (Timestamp.Micro v) = some (v * 1000)) ∧
    (∀ v : Int, ¬ fitsI64 (v * 1000) →
      Timestamp.timestamp_nanos (Timestamp.Micro v) = none) ∧
    (∀ v : Int, fitsI64 (v * 1000000) →
      Timestamp.timestamp_nanos (Timestamp.Milli v) = some (v * 1000000)) ∧
    (∀ v : Int, ¬ fitsI64 (v * 1000000) →
      Timestamp.timestamp_nanos (Timestamp.Milli v) = none) ∧
    (∀ v : Int, fitsI64 (v * 1000000000) →
      Timestamp.timestamp_nanos (Timestamp.Secs v) = some (v * 1000000000)) ∧
    (∀ v : Int, ¬ fitsI64 (v * 1000000000) →
      Timestamp.timestamp_nanos (Timestamp.Secs v) = none) := by
  refine ⟨rfl, fun v => rfl, ?_, ?_, ?_, ?_, ?_, ?_⟩ <;>
    intro v h <;>
    simp only [Timestamp.timestamp_nanos, checked_mul] <;>
    first
      | exact if_pos h
      | exact if_neg h

/-- Witness for C7: one product that fits and one that overflows. -/
theorem timestamp_nanos_correct_witness :
    Timestamp.timestamp_nanos (Timestamp.Micro 2) = some (2 * 1000) ∧
    Timestamp.timestamp_nanos (Timestamp.Secs 9223372036854775807) = none :=
  ⟨timestamp_nanos_correct.2.2.1 2 (by decide),
    timestamp_nanos_correct.2.2.2.2.2.2.2 9223372036854775807 (by decide)⟩

theorem hpStep_eq_max : ∀ a b : Option Precision, hpStep a b = maxPrecOpt a b := by
  decide

theorem maxPrecOpt_assoc : ∀ a b c : Option Precision,
    maxPrecOpt (maxPrecOpt a b) c = maxPrecOpt a (maxPrecOpt b c) := by
  decide

theorem maxPrecOpt_none_right : ∀ a : Option Precision, maxPrecOpt a none = a := by
  decide

theorem foldl_hpStep (l : List (Option Precision)) : ∀ acc : Option Precision,
    l.foldl hpStep acc = maxPrecOpt acc (l.foldr maxPrecOpt none) := by
  induction l with
  | nil =>
    intro acc
    simp [maxPrecOpt_none_right]
  | cons x l ih =>
    intro acc
    simp only [List.foldl_cons, List.foldr_cons, ih, hpStep_eq_max, maxPrecOpt_assoc]

theorem batch_precision_eq_agg (b : Batch) : b.precision = aggSpec b.inner := by
  unfold Batch.precision highest_precision aggSpec
  rw [foldl_hpStep]
  rfl

theorem aggSpec_of_all_unresolved : ∀ pts : List Point,
    (∀ pt ∈ pts, pt.timestamp.precision = none) → aggSpec pts = none := by
  intro pts
  induction pts with
  | nil => intro _; rfl
  | cons p ps ih =>
    intro h
    have hp := h p (by simp)
    have hps := ih fun pt hpt => h pt (by simp [hpt])
    simp only [aggSpec, List.map_cons, List.foldr_cons] at hps ⊢
    rw [hp, hps]
    rfl

/-- C5: the aggregate precision of a batch is the maximum precision rank over
the resolved timestamps of its member points, unresolved timestamps
contributing nothing (an all-unresolved or empty batch reports no precision);
a batch holding points at Nanoseconds 1 and Milliseconds 2 reports
Nanoseconds. -/
theorem batch_precision_correct :
    (∀ b : Batch, b.precision = aggSpec b.inner) ∧
    (∀ b : Batch, (∀ pt ∈ b.inner, pt.timestamp.precision = none) → b.precision = none) ∧
    Batch.precision (Batch.mk
        [Point.mk "a" [] [Field.mk "a" (FieldValue.String "a")] (Timestamp.Nanos 1),
          Point.mk "a" [] [Field.mk "a" (FieldValue.String "a")] (Timestamp.Milli 2)]) =
      some Precision.Nanos := by
  refine ⟨batch_precision_eq_agg, ?_, by decide⟩
  intro b h
  rw [batch_precision_eq_agg]
  exact aggSpec_of_all_unresolved b.inner h

/-- Witness for C5: a batch whose only point has an unresolved timestamp
reports no precision. -/
theorem batch_precision_correct_witness :
    Batch.precision (Batch.mk
        [Point.mk "a" [] [Field.mk "a" (FieldValue.Boolean true)] Timestamp.Now]) = none :=
  batch_precision_correct.2.1 _ (by decide)

/-- C9: `clone_and_clear` returns a batch holding exactly the original points
in order, with the original's length and aggregate precision, while the
receiver afterwards is empty and reports no aggregate precision. -/
theorem clone_and_clear_correct (b : Batch) :
    (Batch.clone_and_clear b).1.inner = b.inner ∧
    (Batch.clone_and_clear b).1.len = b.len ∧
    (Batch.clone_and_clear b).1.precision = b.precision ∧
    (Batch.clone_and_clear b).2.len = 0 ∧
    (Batch.clone_and_clear b).2.precision = none :=
  ⟨rfl, rfl, rfl, rfl, rfl⟩

/-- C10: when scaling a fixed instant to nanoseconds overflows the signed
64-bit range, `Point::to_text` renders exactly as if the timestamp were
unresolved, silently omitting the trailing timestamp segment; at
Seconds (2^63 - 1) the rendered line carries no timestamp and no error. -/
theorem overflow_renders_as_unresolved :
    (∀ (m : String) (tags : List Tag) (fields : List Field) (ts : Timestamp),
      Timestamp.timestamp_nanos ts = none →
        Point.to_text (Point.mk m tags fields ts) =
          Point.to_text (Point.mk m tags fields Timestamp.Now)) ∧
    Timestamp.timestamp_nanos (Timestamp.Secs 9223372036854775807) = none ∧
    Point.to_text (Point.mk "m" [] [Field.mk "a" (FieldValue.Integer 1)]
        (Timestamp.Secs 9223372036854775807)) = "m a=1i" := by
  refine ⟨?_, by decide, by decide⟩
  intro m tags fields ts h
  have h2 : Timestamp.timestamp_nanos Timestamp.Now = none := rfl
  simp only [Point.to_text, h, h2]

/-- Witness for C10: a point at Seconds (2^63 - 1) renders identically to the
same point with an unresolved timestamp. -/
theorem overflow_renders_as_unresolved_witness :
    Point.to_text (Point.mk "m" [] [Field.mk "a" (FieldValue.Integer 1)]
        (Timestamp.Secs 9223372036854775807)) =
      Point.to_text (Point.mk "m" [] [Field.mk "a" (FieldValue.Integer 1)] Timestamp.Now) :=
  overflow_renders_as_unresolved.1 "m" [] [Field.mk "a" (FieldValue.Integer 1)]
    (Timestamp.Secs 9223372036854775807) (by decide)

end InfluxLine
